import Mathlib

/-!
# go-gst: pipeline construction, teardown and the completion waiter

A shallow embedding of `src/gst/gst_pipeline.go` (`NewPipelineFromString`,
`Pipeline.Destroy`, `Wait`) together with the properties proved about it.

Conventions of the embedding:

* a Go `string` is its sequence of bytes (`GoString`), a byte being a natural number;
* a C pointer is a natural number, `0` being `NULL` / `nil`;
* a Go `error` is represented by its message;
* calls into the media engine (cgo) are parameters of the embedded functions, and every
  engine-visible action the Go code performs is recorded in a log, so that *what was called,
  and in which order* can be stated.
-/

namespace Gst

/-! ## Strings -/

/-- One byte of a Go string. -/
abbrev Byte := Nat

/-- A Go string: a sequence of bytes. -/
abbrev GoString := List Byte

/-- The separator `"!"` passed to `strings.Split`: the single byte `0x21`. -/
def bang : Byte := 33

/-- Go `strings.Split(s, sep)` for a one-byte separator: the pieces of `s` between successive
occurrences of `sep`, empty pieces included (so the result has one more piece than `s` has
occurrences of `sep`, and is never empty). -/
def Split : GoString → Byte → List GoString
  | [], _ => [[]]
  | c :: rest, sep =>
    if c = sep then [] :: Split rest sep
    else
      match Split rest sep with
      | [] => [[c]]
      | piece :: pieces => (c :: piece) :: pieces

/-- The format prefix of `fmt.Errorf("Given string is too short for a pipeline: %s", launchv)`
(an ASCII literal, so its bytes are its code points). -/
def tooShortPrefix : GoString :=
  "Given string is too short for a pipeline: ".toList.map Char.toNat

/-! ## Pipeline construction -/

/-- A `*Pipeline` wrapper; `ptr` is the native `GstPipeline*` that `Instance()` returns. -/
structure Pipeline where
  ptr : Nat
  deriving DecidableEq

/-- What `C.gst_parse_launch(cLaunchv, &gerr)` leaves behind: the returned graph pointer and, when
the parser set `gerr`, the diagnostic `gerr.message`. The engine may return a non-`NULL` graph
together with an error. -/
structure ParseLaunch where
  pipeline : Nat
  gerr : Option GoString
  deriving DecidableEq

/-- What a call of `NewPipelineFromString` yields: the two Go results, and the log of the texts
the parser `gst_parse_launch` was given to read during the call. -/
structure NewPipelineResult where
  pipeline : Option Pipeline
  err : Option GoString
  parsed : List GoString
  deriving DecidableEq

/-- The wrapper `wrapPipeline(glib.Take(unsafe.Pointer(pipeline)))` around a native pointer. -/
def wrapPipeline (ptr : Nat) : Pipeline := ⟨ptr⟩

/-- `C.CString(launchv)`: a freshly allocated buffer holding the bytes of the Go string followed
by a terminating NUL byte. -/
def CString (s : GoString) : List Byte := s ++ [0]

/-- The text a C function reads through a `const gchar*` into a buffer: the bytes before the
first NUL byte. -/
def cstr (buf : List Byte) : GoString := buf.takeWhile (fun b => decide (b ≠ 0))

/-- `NewPipelineFromString(launchv)`, the engine's launch-syntax parser being the parameter
`gst_parse_launch`, a function of the C string it is handed. The parser is handed the buffer
`C.CString(launchv)`, so it reads the bytes of `launchv` before its first NUL byte (all of
`launchv` when it has none). `gerr.message` is a C string, and `gerr` holds its content, which
`C.GoString` copies. -/
def NewPipelineFromString (gst_parse_launch : GoString → ParseLaunch) (launchv : GoString) :
    NewPipelineResult :=
  if (Split launchv bang).length < 2 then
    { pipeline := none, err := some (tooShortPrefix ++ launchv), parsed := [] }
  else
    let cLaunchv := CString launchv
    let r := gst_parse_launch (cstr cLaunchv)
    match r.gerr with
    | some errMsg => { pipeline := none, err := some errMsg, parsed := [cstr cLaunchv] }
    | none =>
      { pipeline := some (wrapPipeline r.pipeline), err := none, parsed := [cstr cLaunchv] }

/-! ## Lifecycle states and bus messages -/

/-- Modelled from the spec: the lifecycle states of a pipeline, whose Go declaration (`State`,
`StateNull`, ...) is not part of the source at hand. The spec lists exactly
Null, Ready, Paused and Playing. -/
inductive State where
  | StateNull
  | StateReady
  | StatePaused
  | StatePlaying
  deriving DecidableEq

/-- Modelled from the spec: the type tag of a bus message, whose Go declaration (`MessageType`,
`MessageEOS`, ...) is not part of the source at hand. The spec lists End-Of-Stream, Error,
State-Changed and Other. -/
inductive MessageType where
  | MessageEOS
  | MessageError
  | MessageStateChanged
  | MessageOther
  deriving DecidableEq

/-- A bus message `*Message`: its native pointer, which identifies it, and the tag `Type()`
reports. -/
structure Message where
  ptr : Nat
  type : MessageType
  deriving DecidableEq

/-! ## Destroy -/

/-- The part of the engine `Destroy` talks to, over an engine state `σ`: `BlockSetState`
(blocking transition; yields the Go `error`, `none` being `nil`) and `Unref` (one release of
the pipeline handle). Both are declared outside the source at hand. -/
structure Engine (σ : Type) where
  BlockSetState : σ → State → σ × Option GoString
  Unref : σ → σ

/-- An engine call made by `Destroy`. -/
inductive Call where
  | BlockSetState (target : State)
  | Unref
  deriving DecidableEq

/-- What a call of `Destroy` yields: the engine state afterwards, the Go `error` result, and the
log of engine calls made, in order. -/
structure DestroyResult (σ : Type) where
  engine : σ
  err : Option GoString
  calls : List Call

/-- `(p *Pipeline) Destroy()`. -/
def Destroy {σ : Type} (E : Engine σ) (s : σ) : DestroyResult σ :=
  match E.BlockSetState s State.StateNull with
  | (s1, some err) => { engine := s1, err := some err, calls := [Call.BlockSetState State.StateNull] }
  | (s1, none) =>
    { engine := E.Unref s1, err := none, calls := [Call.BlockSetState State.StateNull, Call.Unref] }

/-- Number of releases of the handle in a log of engine calls. -/
def releases (cs : List Call) : Nat := cs.count Call.Unref

/-! ## Wait -/

/-- What the world looks like at one evaluation of the `select` in `Wait`: the message the bus
channel has ready for receipt, if any; whether `p.Instance()` is non-`nil`; and the state
`p.GetState()` would report. -/
structure Tick where
  pending : Option Message
  valid : Bool
  state : State
  deriving DecidableEq

/-- An action of `Wait` that the engine can observe. -/
inductive Event where
  /-- An evaluation of `p.Instance() == nil`, with whether the handle was valid. -/
  | instanceCheck (valid : Bool)
  /-- The call `p.GetBus().MessageChan()`. -/
  | messageChan
  /-- A call of `p.GetState()`, with the state it reported. -/
  | getState (st : State)
  /-- A receipt `msg := <-msgCh`. -/
  | recv (msg : Message)
  /-- A call `msg.Unref()`. -/
  | unref (msg : Message)
  deriving DecidableEq

/-- A run of `Wait` against a finite schedule of ticks: the actions performed, in order, and
whether `Wait` has returned (`false`: it is still looping when the schedule ends). -/
structure WaitRun where
  trace : List Event
  returned : Bool
  deriving DecidableEq

/-- The run `r` preceded by the actions `es`. -/
def WaitRun.after (es : List Event) (r : WaitRun) : WaitRun :=
  { trace := es ++ r.trace, returned := r.returned }

/-- Running the deferred calls at function return: Go runs them last-in first-out, and
`deferred` holds the most recently deferred message first. -/
def runDeferred (deferred : List Message) : List Event := deferred.map Event.unref

/-- The `for { select { ... } }` loop of `Wait`. `deferred` is the stack of `defer msg.Unref()`
calls registered so far, most recent first. A `select` with a `default` branch takes the
receive when a message is ready and the `default` branch only otherwise. -/
def waitLoop : List Tick → List Message → WaitRun
  | [], _ => { trace := [], returned := false }
  | t :: ts, deferred =>
    match t.pending with
    | some msg =>
      if msg.type = MessageType.MessageEOS then
        { trace := Event.recv msg :: runDeferred (msg :: deferred), returned := true }
      else
        (waitLoop ts (msg :: deferred)).after [Event.recv msg]
    | none =>
      if t.valid = false then
        { trace := Event.instanceCheck false :: runDeferred deferred, returned := true }
      else if t.state = State.StateNull then
        { trace := Event.instanceCheck true :: Event.getState t.state :: runDeferred deferred,
          returned := true }
      else
        (waitLoop ts deferred).after [Event.instanceCheck true, Event.getState t.state]

/-- `Wait(p)`: `valid0` is whether `p.Instance()` is non-`nil` at entry; `ticks` is what the
world shows at the successive evaluations of the `select`. -/
def Wait (valid0 : Bool) (ticks : List Tick) : WaitRun :=
  if valid0 = false then
    { trace := [Event.instanceCheck false], returned := true }
  else
    (waitLoop ticks []).after [Event.instanceCheck true, Event.messageChan]

/-- The messages received in a trace, in order. -/
def received : List Event → List Message
  | [] => []
  | Event.recv m :: es => m :: received es
  | _ :: es => received es

/-- The messages released in a trace, in order. -/
def released : List Event → List Message
  | [] => []
  | Event.unref m :: es => m :: released es
  | _ :: es => released es

/-- Whether an action is a poll of the loop: a state check (of the handle or of the state)
or a receipt from the bus. -/
def Event.isPoll : Event → Bool
  | Event.instanceCheck _ => true
  | Event.getState _ => true
  | Event.recv _ => true
  | _ => false

/-- Scan of a trace with the list `out` of messages received and not yet released: `true` when
every poll happens with `out` empty. -/
def promptFrom : List Message → List Event → Bool
  | _, [] => true
  | out, Event.recv m :: es => out.isEmpty && promptFrom (m :: out) es
  | out, Event.unref m :: es => promptFrom (out.erase m) es
  | out, e :: es => (!e.isPoll || out.isEmpty) && promptFrom out es

/-- Prompt release: at every state check and every receipt in the trace, every message received
before it has already been released. -/
def promptRelease (tr : List Event) : Bool := promptFrom [] tr

/-- Whether an action is one on which `Wait` returns: finding the handle invalid, finding the
state Null, or receiving an End-Of-Stream message. -/
def Event.isExit : Event → Bool
  | Event.instanceCheck valid => !valid
  | Event.getState st => decide (st = State.StateNull)
  | Event.recv msg => decide (msg.type = MessageType.MessageEOS)
  | _ => false

/-! ## Sample inputs -/

/-- An engine whose state is the lifecycle state of the pipeline, every blocking transition
succeeding, and for which a release leaves the state as it is. -/
def obligingEngine : Engine State where
  BlockSetState := fun _ target => (target, none)
  Unref := fun st => st

/-- An engine that remembers whether the handle has been released (its state) and refuses any
transition on a released handle with the error "gone". -/
def strictEngine : Engine Bool where
  BlockSetState := fun gone _ => if gone then (gone, some [103, 111, 110, 101]) else (gone, none)
  Unref := fun _ => true

/-- A parser that rejects the text "a!" with the diagnostic "no" while still returning a graph
pointer, and accepts every other text. -/
def pickyParser (text : GoString) : ParseLaunch :=
  if text = [97, 33] then ⟨7, some [110, 111]⟩ else ⟨9, none⟩

/-- A State-Changed message. -/
def msgChanged : Message := ⟨1, MessageType.MessageStateChanged⟩

/-- An Error message. -/
def msgError : Message := ⟨2, MessageType.MessageError⟩

/-- An End-Of-Stream message. -/
def msgEOS : Message := ⟨3, MessageType.MessageEOS⟩

/-- A tick of a valid pipeline in state `st` with `msg` ready on the bus. -/
def tickMsg (msg : Message) (st : State) : Tick := ⟨some msg, true, st⟩

/-- A tick of a valid pipeline in state `st` with nothing ready on the bus. -/
def tickIdle (st : State) : Tick := ⟨none, true, st⟩

/-! ## Facts about `Split` -/

theorem Split_ne_nil (s : GoString) (sep : Byte) : Split s sep ≠ [] := by
  induction s with
  | nil => simp [Split]
  | cons c rest ih =>
    unfold Split
    split_ifs
    · simp
    · cases h : Split rest sep with
      | nil => exact absurd h ih
      | cons piece pieces => simp

/-- The number of pieces is one more than the number of separators. -/
theorem Split_length (s : GoString) (sep : Byte) :
    (Split s sep).length = s.count sep + 1 := by
  induction s with
  | nil => simp [Split]
  | cons c rest ih =>
    unfold Split
    split_ifs with hc
    · subst hc
      simp [ih]
    · have hne : (c == sep) = false := by simpa using hc
      cases h : Split rest sep with
      | nil => exact absurd h (Split_ne_nil rest sep)
      | cons piece pieces =>
        rw [h] at ih
        simp only [List.length_cons] at ih ⊢
        rw [List.count_cons, hne]
        simpa using ih

/-- Fewer than two pieces exactly when the separator does not occur. -/
theorem Split_length_lt_two (s : GoString) (sep : Byte) :
    (Split s sep).length < 2 ↔ sep ∉ s := by
  rw [Split_length, ← List.count_eq_zero]
  omega

/-! ## `NewPipelineFromString` -/

/-- C1: a description text containing no '!' (fewer than two '!'-separated stages, such as the
empty text or "source") makes `NewPipelineFromString` return an error and no pipeline, and the
engine's launch-syntax parser is not invoked. -/
theorem C1_too_few_stages_rejected (gst_parse_launch : GoString → ParseLaunch)
    (launchv : GoString) (h : bang ∉ launchv) :
    (Split launchv bang).length < 2 ∧
    (NewPipelineFromString gst_parse_launch launchv).pipeline = none ∧
    (NewPipelineFromString gst_parse_launch launchv).err = some (tooShortPrefix ++ launchv) ∧
    (NewPipelineFromString gst_parse_launch launchv).parsed = [] := by
  have hlt : (Split launchv bang).length < 2 := (Split_length_lt_two launchv bang).2 h
  simp [NewPipelineFromString, hlt]

/-- The text "source" (one stage, no chain) is rejected before the parser is reached, whatever
the parser would have answered. -/
theorem C1_too_few_stages_rejected_witness :
    bang ∉ [115, 111, 117, 114, 99, 101] ∧
    (Split [115, 111, 117, 114, 99, 101] bang).length < 2 ∧
    (NewPipelineFromString (fun _ => ⟨7, none⟩) [115, 111, 117, 114, 99, 101]).pipeline = none ∧
    (NewPipelineFromString (fun _ => ⟨7, none⟩) [115, 111, 117, 114, 99, 101]).err
      = some (tooShortPrefix ++ [115, 111, 117, 114, 99, 101]) ∧
    (NewPipelineFromString (fun _ => ⟨7, none⟩) [115, 111, 117, 114, 99, 101]).parsed = [] :=
  ⟨by decide, C1_too_few_stages_rejected (fun _ => ⟨7, none⟩) [115, 111, 117, 114, 99, 101]
    (by decide)⟩

/-- What the parser reads of `C.CString(s)`: the bytes of `s` before its first NUL byte. -/
theorem cstr_CString (s : GoString) :
    cstr (CString s) = s.takeWhile (fun b => decide (b ≠ 0)) := by
  induction s with
  | nil => simp [cstr, CString]
  | cons c rest ih =>
    simp only [cstr, CString] at ih
    by_cases hc : c = 0
    · simp [cstr, CString, hc]
    · simp only [cstr, CString, List.cons_append]
      rw [List.takeWhile_cons_of_pos (by simpa using hc),
        List.takeWhile_cons_of_pos (by simpa using hc), ih]

/-- A text without a NUL byte is read back whole. -/
theorem cstr_CString_of_no_nul (s : GoString) (h : 0 ∉ s) : cstr (CString s) = s := by
  rw [cstr_CString, List.takeWhile_eq_self_iff]
  intro b hb
  have : b ≠ 0 := fun hz => h (hz ▸ hb)
  simpa using this

/-- C9: when the text passes the pre-flight check and the engine's parser, reading the text it is
handed, reports an error with diagnostic `m`, `NewPipelineFromString` returns no pipeline and an
error whose message is exactly `m`, whatever graph pointer the parser returned alongside the
error. -/
theorem C9_parse_error_verbatim (gst_parse_launch : GoString → ParseLaunch)
    (launchv m : GoString) (hpass : ¬ (Split launchv bang).length < 2)
    (herr : (gst_parse_launch (cstr (CString launchv))).gerr = some m) :
    (NewPipelineFromString gst_parse_launch launchv).pipeline = none ∧
    (NewPipelineFromString gst_parse_launch launchv).err = some m ∧
    (NewPipelineFromString gst_parse_launch launchv).parsed = [cstr (CString launchv)] := by
  simp [NewPipelineFromString, hpass, herr]

/-- The text "a!\x00b" passes the check and is read by the parser as "a!"; the picky parser
answers with a non-null graph pointer and the diagnostic "no", and the call fails with exactly
that diagnostic. -/
theorem C9_parse_error_verbatim_witness :
    (¬ (Split [97, 33, 0, 98] bang).length < 2) ∧
    (pickyParser (cstr (CString [97, 33, 0, 98]))) = ⟨7, some [110, 111]⟩ ∧
    (NewPipelineFromString pickyParser [97, 33, 0, 98]).pipeline = none ∧
    (NewPipelineFromString pickyParser [97, 33, 0, 98]).err = some [110, 111] ∧
    (NewPipelineFromString pickyParser [97, 33, 0, 98]).parsed = [cstr (CString [97, 33, 0, 98])] :=
  ⟨by decide, by decide,
    C9_parse_error_verbatim pickyParser [97, 33, 0, 98] [110, 111] (by decide) (by decide)⟩

/-- C10, as stated, fails: the texts "a!\x00b" and "a\x00!b" contain a '!' and pass the
pre-flight check, but the parser is not handed them unchanged: it reads "a!" of the first and
"a" of the second, and its answer is the one for the text it read. -/
theorem C10_counterexample :
    bang ∈ [97, 33, 0, 98] ∧ (¬ (Split [97, 33, 0, 98] bang).length < 2) ∧
    (NewPipelineFromString pickyParser [97, 33, 0, 98]).parsed = [[97, 33]] ∧
    (NewPipelineFromString pickyParser [97, 33, 0, 98]).parsed ≠ [[97, 33, 0, 98]] ∧
    (NewPipelineFromString pickyParser [97, 33, 0, 98]).err = some [110, 111] ∧
    pickyParser [97, 33, 0, 98] = ⟨9, none⟩ ∧
    bang ∈ [97, 0, 33, 98] ∧
    (NewPipelineFromString pickyParser [97, 0, 33, 98]).parsed = [[97]] ∧
    (NewPipelineFromString pickyParser [97, 0, 33, 98]).parsed ≠ [[97, 0, 33, 98]] := by
  decide

/-- C10, amended: the pre-flight check of `NewPipelineFromString` rejects a text (validation
error naming the text, no pipeline, parser not reached) if and only if the text contains no '!';
the '!'-separated pieces are counted with the empty ones, so "!" and "source!" have two pieces.
Every text containing a '!' passes the check and is handed to the engine's parser, once, as a
C string: the parser reads the bytes before the first NUL byte, which is the text unchanged when
it contains no NUL byte, and the result of the call is built from the parser's answer for the
text it read (its diagnostic as the error, or else its graph pointer wrapped as the pipeline). -/
theorem C10_preflight_iff_no_bang (gst_parse_launch : GoString → ParseLaunch)
    (launchv : GoString) :
    NewPipelineFromString gst_parse_launch launchv
      = (if bang ∈ launchv then
          { pipeline :=
              if (gst_parse_launch (launchv.takeWhile (fun b => decide (b ≠ 0)))).gerr = none
              then some (wrapPipeline
                (gst_parse_launch (launchv.takeWhile (fun b => decide (b ≠ 0)))).pipeline)
              else none,
            err := (gst_parse_launch (launchv.takeWhile (fun b => decide (b ≠ 0)))).gerr,
            parsed := [launchv.takeWhile (fun b => decide (b ≠ 0))] }
        else
          { pipeline := none, err := some (tooShortPrefix ++ launchv), parsed := [] }) ∧
    ((NewPipelineFromString gst_parse_launch launchv).parsed = [] ↔ bang ∉ launchv) ∧
    (0 ∉ launchv → launchv.takeWhile (fun b => decide (b ≠ 0)) = launchv) ∧
    ((Split launchv bang).length < 2 ↔ bang ∉ launchv) ∧
    (Split launchv bang).length = launchv.count bang + 1 ∧
    Split [33] bang = [[], []] ∧
    Split [115, 111, 117, 114, 99, 101, 33] bang = [[115, 111, 117, 114, 99, 101], []] ∧
    (NewPipelineFromString gst_parse_launch [33]).parsed = [[33]] ∧
    (NewPipelineFromString gst_parse_launch [115, 111, 117, 114, 99, 101, 33]).parsed
      = [[115, 111, 117, 114, 99, 101, 33]] := by
  have key := Split_length_lt_two launchv bang
  have hshape : ∀ t : GoString, ¬ (Split t bang).length < 2 →
      NewPipelineFromString gst_parse_launch t
        = { pipeline :=
              if (gst_parse_launch (t.takeWhile (fun b => decide (b ≠ 0)))).gerr = none
              then some (wrapPipeline
                (gst_parse_launch (t.takeWhile (fun b => decide (b ≠ 0)))).pipeline)
              else none,
            err := (gst_parse_launch (t.takeWhile (fun b => decide (b ≠ 0)))).gerr,
            parsed := [t.takeWhile (fun b => decide (b ≠ 0))] } := by
    intro t ht
    unfold NewPipelineFromString
    rw [if_neg ht]
    simp only [cstr_CString]
    cases hg : (gst_parse_launch (t.takeWhile (fun b => decide (b ≠ 0)))).gerr <;> simp
  have hfull : NewPipelineFromString gst_parse_launch launchv
      = (if bang ∈ launchv then
          { pipeline :=
              if (gst_parse_launch (launchv.takeWhile (fun b => decide (b ≠ 0)))).gerr = none
              then some (wrapPipeline
                (gst_parse_launch (launchv.takeWhile (fun b => decide (b ≠ 0)))).pipeline)
              else none,
            err := (gst_parse_launch (launchv.takeWhile (fun b => decide (b ≠ 0)))).gerr,
            parsed := [launchv.takeWhile (fun b => decide (b ≠ 0))] }
        else
          { pipeline := none, err := some (tooShortPrefix ++ launchv), parsed := [] }) := by
    by_cases hb : bang ∈ launchv
    · rw [if_pos hb]
      exact hshape launchv (fun hlt => key.1 hlt hb)
    · rw [if_neg hb]
      simp [NewPipelineFromString, key.2 hb]
  refine ⟨hfull, ?_, ?_, key, Split_length launchv bang, by decide, by decide, ?_, ?_⟩
  · rw [hfull]
    by_cases hb : bang ∈ launchv <;> simp [hb]
  · intro h0
    rw [← cstr_CString]
    exact cstr_CString_of_no_nul launchv h0
  · rw [hshape _ (by decide)]
    rfl
  · rw [hshape _ (by decide)]
    rfl

/-! ## `Destroy` -/

/-- C5: `Destroy` first requests `BlockSetState(StateNull)`; it returns whatever error that
request yields; when the request fails nothing else is called (no release of the handle), and
when it succeeds the handle is released exactly once, after the transition. So within one call
the handle is released if and only if `BlockSetState(StateNull)` succeeded. -/
theorem C5_destroy_sequencing {σ : Type} (E : Engine σ) (s : σ) :
    (Destroy E s).calls.head? = some (Call.BlockSetState State.StateNull) ∧
    (Destroy E s).err = (E.BlockSetState s State.StateNull).2 ∧
    (Destroy E s).calls
      = (if (E.BlockSetState s State.StateNull).2 = none
          then [Call.BlockSetState State.StateNull, Call.Unref]
          else [Call.BlockSetState State.StateNull]) ∧
    (Destroy E s).engine
      = (if (E.BlockSetState s State.StateNull).2 = none
          then E.Unref (E.BlockSetState s State.StateNull).1
          else (E.BlockSetState s State.StateNull).1) ∧
    (releases (Destroy E s).calls = 1 ↔ (E.BlockSetState s State.StateNull).2 = none) ∧
    (releases (Destroy E s).calls = 0 ↔ (E.BlockSetState s State.StateNull).2 ≠ none) := by
  unfold Destroy
  rcases h : E.BlockSetState s State.StateNull with ⟨s1, _ | err⟩ <;>
    simp [releases]

/-- C6, as stated, fails: on a pipeline already at Null, with an engine whose
`BlockSetState(StateNull)` succeeds, two successive `Destroy` calls both return no error and
release the handle twice in total, not once. -/
theorem C6_counterexample :
    (Destroy obligingEngine State.StateNull).err = none ∧
    (Destroy obligingEngine (Destroy obligingEngine State.StateNull).engine).err = none ∧
    (Destroy obligingEngine State.StateNull).engine = State.StateNull ∧
    releases ((Destroy obligingEngine State.StateNull).calls ++
      (Destroy obligingEngine (Destroy obligingEngine State.StateNull).engine).calls) = 2 ∧
    releases ((Destroy obligingEngine State.StateNull).calls ++
      (Destroy obligingEngine (Destroy obligingEngine State.StateNull).engine).calls) ≠ 1 := by
  decide

/-- C6, amended: whenever `BlockSetState(StateNull)` succeeds (as on a pipeline already at
Null), a `Destroy` call returns no error and releases the handle exactly once in that call.
`Destroy` keeps no record of an earlier release: a second `Destroy` call returns whatever its
own `BlockSetState(StateNull)` yields and releases the handle once more exactly when that
request succeeds, so two successive successful `Destroy` calls release the handle twice in
total. -/
theorem C6_destroy_releases_once_per_call {σ : Type} (E : Engine σ) (s : σ)
    (h1 : (E.BlockSetState s State.StateNull).2 = none) :
    (Destroy E s).err = none ∧
    (Destroy E s).calls = [Call.BlockSetState State.StateNull, Call.Unref] ∧
    releases (Destroy E s).calls = 1 ∧
    (Destroy E s).engine = E.Unref (E.BlockSetState s State.StateNull).1 ∧
    (Destroy E (Destroy E s).engine).err
      = (E.BlockSetState (Destroy E s).engine State.StateNull).2 ∧
    releases (Destroy E (Destroy E s).engine).calls
      = (if (E.BlockSetState (Destroy E s).engine State.StateNull).2 = none then 1 else 0) ∧
    releases ((Destroy E s).calls ++ (Destroy E (Destroy E s).engine).calls)
      = (if (E.BlockSetState (Destroy E s).engine State.StateNull).2 = none then 2 else 1) := by
  have each : ∀ u : σ,
      (Destroy E u).err = (E.BlockSetState u State.StateNull).2 ∧
      (Destroy E u).calls
        = (if (E.BlockSetState u State.StateNull).2 = none
            then [Call.BlockSetState State.StateNull, Call.Unref]
            else [Call.BlockSetState State.StateNull]) ∧
      (Destroy E u).engine
        = (if (E.BlockSetState u State.StateNull).2 = none
            then E.Unref (E.BlockSetState u State.StateNull).1
            else (E.BlockSetState u State.StateNull).1) := by
    intro u
    unfold Destroy
    rcases h : E.BlockSetState u State.StateNull with ⟨u1, _ | err⟩ <;> simp
  obtain ⟨e1, c1, g1⟩ := each s
  obtain ⟨e2, c2, -⟩ := each (Destroy E s).engine
  rw [h1] at e1
  rw [if_pos h1] at c1 g1
  refine ⟨e1, c1, ?_, g1, e2, ?_, ?_⟩
  · rw [c1]; decide
  · rw [c2]
    split_ifs <;> decide
  · rw [c1, c2]
    split_ifs <;> decide

/-- Two successive `Destroy` calls on a Null pipeline: with the obliging engine both succeed
and the handle is released twice; with the strict engine the second call is refused and the
handle has been released once. -/
theorem C6_destroy_releases_once_per_call_witness :
    (obligingEngine.BlockSetState State.StateNull State.StateNull).2 = none ∧
    (Destroy obligingEngine State.StateNull).err = none ∧
    releases (Destroy obligingEngine State.StateNull).calls = 1 ∧
    (Destroy obligingEngine (Destroy obligingEngine State.StateNull).engine).err = none ∧
    releases ((Destroy obligingEngine State.StateNull).calls ++
      (Destroy obligingEngine (Destroy obligingEngine State.StateNull).engine).calls) = 2 ∧
    (strictEngine.BlockSetState false State.StateNull).2 = none ∧
    (Destroy strictEngine false).err = none ∧
    releases (Destroy strictEngine false).calls = 1 ∧
    (Destroy strictEngine (Destroy strictEngine false).engine).err = some [103, 111, 110, 101] ∧
    releases ((Destroy strictEngine false).calls ++
      (Destroy strictEngine (Destroy strictEngine false).engine).calls) = 1 :=
  have ho := C6_destroy_releases_once_per_call obligingEngine State.StateNull rfl
  have hs := C6_destroy_releases_once_per_call strictEngine false rfl
  ⟨rfl, ho.1, ho.2.2.1, by decide, by decide, rfl, hs.1, hs.2.2.1, by decide, by decide⟩

/-! ## Facts about traces -/

theorem received_append (a b : List Event) : received (a ++ b) = received a ++ received b := by
  induction a with
  | nil => rfl
  | cons e es ih => cases e <;> simp [received, ih]

theorem released_append (a b : List Event) : released (a ++ b) = released a ++ released b := by
  induction a with
  | nil => rfl
  | cons e es ih => cases e <;> simp [released, ih]

theorem received_runDeferred (d : List Message) : received (runDeferred d) = [] := by
  induction d with
  | nil => rfl
  | cons m ms ih => simpa [runDeferred, received] using ih

theorem released_runDeferred (d : List Message) : released (runDeferred d) = d := by
  induction d with
  | nil => rfl
  | cons m ms ih => simpa [runDeferred, released] using ih

/-- Shape of a returning run of the loop: observations without any release, ending in an exit
action, followed by the deferred releases: those of the messages received in this run, most
recent first, and then those registered before. -/
theorem waitLoop_returned_shape (ticks : List Tick) (d : List Message)
    (h : (waitLoop ticks d).returned = true) :
    ∃ obs e, (waitLoop ticks d).trace
        = obs ++ e :: runDeferred ((received (obs ++ [e])).reverse ++ d) ∧
      released (obs ++ [e]) = [] ∧ e.isExit = true := by
  induction ticks generalizing d with
  | nil => simp [waitLoop] at h
  | cons t ts ih =>
    unfold waitLoop at h ⊢
    cases hp : t.pending with
    | some msg =>
      simp only [hp] at h ⊢
      by_cases he : msg.type = MessageType.MessageEOS
      · refine ⟨[], Event.recv msg, ?_, ?_, ?_⟩
        · simp [he, received]
        · simp [released]
        · simp [Event.isExit, he]
      · simp only [he, if_false, WaitRun.after] at h ⊢
        obtain ⟨obs, e, htr, hrel, hex⟩ := ih (msg :: d) h
        refine ⟨Event.recv msg :: obs, e, ?_, ?_, hex⟩
        · rw [htr]
          simp [received]
        · simpa [released] using hrel
    | none =>
      simp only [hp] at h ⊢
      by_cases hv : t.valid = false
      · refine ⟨[], Event.instanceCheck false, ?_, ?_, ?_⟩
        · simp [hv, received]
        · simp [released]
        · simp [Event.isExit]
      · by_cases hs : t.state = State.StateNull
        · refine ⟨[Event.instanceCheck true], Event.getState t.state, ?_, ?_, ?_⟩
          · simp [hv, hs, received]
          · simp [released]
          · simp [Event.isExit, hs]
        · simp only [hv, hs, if_false, WaitRun.after] at h ⊢
          obtain ⟨obs, e, htr, hrel, hex⟩ := ih d h
          refine ⟨Event.instanceCheck true :: Event.getState t.state :: obs, e, ?_, ?_, hex⟩
          · rw [htr]
            simp [received]
          · simpa [released] using hrel

/-- A returning run of the loop returns at one tick: the loop is still running after the ticks
before it, has returned after it, and that tick either has no message ready and shows an invalid
handle or the state Null, or has an End-Of-Stream message ready. -/
theorem waitLoop_exit_tick (ticks : List Tick) (d : List Message)
    (h : (waitLoop ticks d).returned = true) :
    ∃ pre t post, ticks = pre ++ t :: post ∧
      (waitLoop pre d).returned = false ∧ (waitLoop (pre ++ [t]) d).returned = true ∧
      ((t.pending = none ∧ (t.valid = false ∨ t.state = State.StateNull)) ∨
        ∃ m, t.pending = some m ∧ m.type = MessageType.MessageEOS) := by
  induction ticks generalizing d with
  | nil => simp [waitLoop] at h
  | cons t ts ih =>
    unfold waitLoop at h
    cases hp : t.pending with
    | some msg =>
      simp only [hp] at h
      by_cases he : msg.type = MessageType.MessageEOS
      · refine ⟨[], t, ts, rfl, by simp [waitLoop], ?_, Or.inr ⟨msg, hp, he⟩⟩
        simp [waitLoop, hp, he]
      · simp only [he, if_false, WaitRun.after] at h
        obtain ⟨pre, u, post, hts, hpre, hu, hterm⟩ := ih (msg :: d) h
        refine ⟨t :: pre, u, post, by simp [hts], ?_, ?_, hterm⟩
        · simpa [waitLoop, hp, he, WaitRun.after] using hpre
        · simpa [waitLoop, hp, he, WaitRun.after] using hu
    | none =>
      simp only [hp] at h
      by_cases hv : t.valid = false
      · refine ⟨[], t, ts, rfl, by simp [waitLoop], ?_, Or.inl ⟨hp, Or.inl hv⟩⟩
        simp [waitLoop, hp, hv]
      · by_cases hs : t.state = State.StateNull
        · refine ⟨[], t, ts, rfl, by simp [waitLoop], ?_, Or.inl ⟨hp, Or.inr hs⟩⟩
          simp [waitLoop, hp, hv, hs]
        · simp only [hv, hs, if_false, WaitRun.after] at h
          obtain ⟨pre, u, post, hts, hpre, hu, hterm⟩ := ih d h
          refine ⟨t :: pre, u, post, by simp [hts], ?_, ?_, hterm⟩
          · simpa [waitLoop, hp, hv, hs, WaitRun.after] using hpre
          · simpa [waitLoop, hp, hv, hs, WaitRun.after] using hu

/-- One more tick with a message that is not End-Of-Stream does not change whether the loop
has returned. -/
theorem waitLoop_snoc_other (pre : List Tick) (d : List Message) (t : Tick) (m : Message)
    (hp : t.pending = some m) (hm : m.type ≠ MessageType.MessageEOS) :
    (waitLoop (pre ++ [t]) d).returned = (waitLoop pre d).returned := by
  induction pre generalizing d with
  | nil => simp [waitLoop, hp, hm, WaitRun.after]
  | cons u us ih =>
    simp only [List.cons_append]
    unfold waitLoop
    cases hu : u.pending with
    | some msg =>
      by_cases he : msg.type = MessageType.MessageEOS
      · simp [he]
      · simpa [he, WaitRun.after] using ih (msg :: d)
    | none =>
      by_cases hv : u.valid = false
      · simp [hv]
      · by_cases hs : u.state = State.StateNull
        · simp [hv, hs]
        · simpa [hv, hs, WaitRun.after] using ih d

/-- The loop run up to the first End-Of-Stream message: when every earlier tick shows a valid
handle, a state other than Null and no End-Of-Stream message, the loop returns and has received
exactly the messages of those ticks and then the End-Of-Stream message. -/
theorem waitLoop_until_eos (pre post : List Tick) (tE : Tick) (e : Message) (d : List Message)
    (hpre : ∀ t ∈ pre, t.valid = true ∧ t.state ≠ State.StateNull ∧
      ∀ m ∈ t.pending, m.type ≠ MessageType.MessageEOS)
    (hE : tE.pending = some e) (he : e.type = MessageType.MessageEOS) :
    (waitLoop (pre ++ tE :: post) d).returned = true ∧
    received (waitLoop (pre ++ tE :: post) d).trace = pre.filterMap Tick.pending ++ [e] := by
  induction pre generalizing d with
  | nil =>
    simp [waitLoop, hE, he, received, runDeferred]
    have := received_runDeferred d
    simpa [runDeferred] using this
  | cons u us ih =>
    have hu := hpre u (List.mem_cons_self u us)
    have hus : ∀ t ∈ us, t.valid = true ∧ t.state ≠ State.StateNull ∧
        ∀ m ∈ t.pending, m.type ≠ MessageType.MessageEOS :=
      fun t ht => hpre t (List.mem_cons_of_mem u ht)
    simp only [List.cons_append]
    unfold waitLoop
    cases hp : u.pending with
    | some msg =>
      have hne : msg.type ≠ MessageType.MessageEOS := hu.2.2 msg (by simp [hp])
      obtain ⟨h1, h2⟩ := ih (msg :: d) hus
      simp [hne, WaitRun.after, h1, received, h2, hp]
    | none =>
      obtain ⟨h1, h2⟩ := ih d hus
      simp [hu.1, hu.2.1, WaitRun.after, h1, received, h2, hp]

/-- The loop on a pipeline at Null with a backlog of ready messages and then a poll that finds
nothing ready: it returns; it has received the backlog up to and including its first
End-Of-Stream message; and when the backlog has no End-Of-Stream message its trace is the
receipts of the backlog, the state check, and the deferred releases. -/
theorem waitLoop_backlog (backlog : List Message) (t : Tick) (rest : List Tick)
    (d : List Message)
    (hp : t.pending = none) (hv : t.valid = true) (hs : t.state = State.StateNull) :
    (waitLoop (backlog.map (fun m => tickMsg m State.StateNull) ++ t :: rest) d).returned
      = true ∧
    received (waitLoop (backlog.map (fun m => tickMsg m State.StateNull) ++ t :: rest) d).trace
      = backlog.takeWhile (fun m => decide (m.type ≠ MessageType.MessageEOS)) ++
        (backlog.find? (fun m => decide (m.type = MessageType.MessageEOS))).toList ∧
    ((∀ m ∈ backlog, m.type ≠ MessageType.MessageEOS) →
      (waitLoop (backlog.map (fun m => tickMsg m State.StateNull) ++ t :: rest) d).trace
        = backlog.map Event.recv ++
          [Event.instanceCheck true, Event.getState State.StateNull] ++
          runDeferred (backlog.reverse ++ d)) := by
  induction backlog generalizing d with
  | nil =>
    have hr := received_runDeferred d
    simp [waitLoop, hp, hv, hs, received, hr]
  | cons m ms ih =>
    obtain ⟨h1, h2, h3⟩ := ih (m :: d)
    have hpm : (tickMsg m State.StateNull).pending = some m := rfl
    simp only [List.map_cons, List.cons_append]
    unfold waitLoop
    simp only [hpm]
    by_cases he : m.type = MessageType.MessageEOS
    · have hr := received_runDeferred d
      simp only [runDeferred] at hr
      simp [he, received, runDeferred, hr]
    · simp only [he, if_false, WaitRun.after]
      refine ⟨h1, ?_, ?_⟩
      · simp [received, h2, he]
      · intro hall
        have hms : ∀ x ∈ ms, x.type ≠ MessageType.MessageEOS :=
          fun x hx => hall x (List.mem_cons_of_mem m hx)
        rw [h3 hms]
        simp [runDeferred]

/-- Shape of a returning run of `Wait`: observations without any release, ending in an exit
action, followed by the releases of the messages received, most recent first. -/
theorem Wait_returned_shape (valid0 : Bool) (ticks : List Tick)
    (h : (Wait valid0 ticks).returned = true) :
    ∃ obs e, (Wait valid0 ticks).trace = obs ++ e :: runDeferred (received (obs ++ [e])).reverse ∧
      released (obs ++ [e]) = [] ∧ e.isExit = true := by
  unfold Wait at h ⊢
  by_cases hv : valid0 = false
  · refine ⟨[], Event.instanceCheck false, ?_, ?_, ?_⟩
    · simp [hv, received, runDeferred]
    · simp [released]
    · simp [Event.isExit]
  · simp only [hv, if_false, WaitRun.after] at h ⊢
    obtain ⟨obs, e, htr, hrel, hex⟩ := waitLoop_returned_shape ticks [] h
    refine ⟨Event.instanceCheck true :: Event.messageChan :: obs, e, ?_, ?_, hex⟩
    · rw [htr]
      simp [received]
    · simpa [released] using hrel

/-! ## `Wait` -/

/-- C2: for a pipeline whose handle is valid and whose state is never Null during the wait, and
a bus that delivers finitely many messages other than End-Of-Stream (with any number of polls
finding nothing ready in between) followed by an End-Of-Stream message, `Wait` returns, having
received exactly the messages up to and including the first End-Of-Stream message, whatever the
bus holds after it. -/
theorem C2_wait_returns_on_eos (pre post : List Tick) (tE : Tick) (e : Message)
    (hpre : ∀ t ∈ pre, t.valid = true ∧ t.state ≠ State.StateNull ∧
      ∀ m ∈ t.pending, m.type ≠ MessageType.MessageEOS)
    (hE : tE.pending = some e) (he : e.type = MessageType.MessageEOS) :
    (Wait true (pre ++ tE :: post)).returned = true ∧
    received (Wait true (pre ++ tE :: post)).trace = pre.filterMap Tick.pending ++ [e] := by
  obtain ⟨h1, h2⟩ := waitLoop_until_eos pre post tE e [] hpre hE he
  simp [Wait, WaitRun.after, h1, received, h2]

/-- A State-Changed message, an idle poll and an Error message, then End-Of-Stream, then one more
message that is never received. -/
theorem C2_wait_returns_on_eos_witness :
    (Wait true ([tickMsg msgChanged State.StatePlaying, tickIdle State.StatePaused,
        tickMsg msgError State.StatePlaying] ++
        tickMsg msgEOS State.StatePlaying :: [tickMsg msgChanged State.StatePlaying])).returned
      = true ∧
    received (Wait true ([tickMsg msgChanged State.StatePlaying, tickIdle State.StatePaused,
        tickMsg msgError State.StatePlaying] ++
        tickMsg msgEOS State.StatePlaying :: [tickMsg msgChanged State.StatePlaying])).trace
      = [tickMsg msgChanged State.StatePlaying, tickIdle State.StatePaused,
          tickMsg msgError State.StatePlaying].filterMap Tick.pending ++ [msgEOS] :=
  C2_wait_returns_on_eos
    [tickMsg msgChanged State.StatePlaying, tickIdle State.StatePaused,
      tickMsg msgError State.StatePlaying]
    [tickMsg msgChanged State.StatePlaying] (tickMsg msgEOS State.StatePlaying) msgEOS
    (by decide) rfl rfl

/-- C3, as stated, fails: on a valid pipeline whose state is Null throughout, with a
State-Changed message pending on the bus when `Wait` is called, `Wait` receives that message
first and only then, finding nothing more ready, checks the state and returns. -/
theorem C3_counterexample :
    (∀ t ∈ [tickMsg msgChanged State.StateNull, tickIdle State.StateNull],
      t.valid = true ∧ t.state = State.StateNull) ∧
    (Wait true [tickMsg msgChanged State.StateNull, tickIdle State.StateNull]).trace
      = [Event.instanceCheck true, Event.messageChan, Event.recv msgChanged,
         Event.instanceCheck true, Event.getState State.StateNull, Event.unref msgChanged] ∧
    received (Wait true [tickMsg msgChanged State.StateNull, tickIdle State.StateNull]).trace
      ≠ [] := by
  decide

/-- C3, amended: for a pipeline with a valid handle whose state is already Null when `Wait` is
called, `Wait` returns once the messages pending on the bus at that moment have been received:
the pending messages are received first, in order, stopping at the first End-Of-Stream message
(on which `Wait` returns); when none of them is End-Of-Stream, all of them are received and the
state check at the first poll that finds no message ready decides the return. In particular,
with no message pending `Wait` returns at once and receives no message, whatever arrives
later. -/
theorem C3_wait_returns_at_null_after_backlog (backlog : List Message) (t : Tick)
    (rest : List Tick)
    (hp : t.pending = none) (hv : t.valid = true) (hs : t.state = State.StateNull) :
    (Wait true (backlog.map (fun m => tickMsg m State.StateNull) ++ t :: rest)).returned
      = true ∧
    received (Wait true (backlog.map (fun m => tickMsg m State.StateNull) ++ t :: rest)).trace
      = backlog.takeWhile (fun m => decide (m.type ≠ MessageType.MessageEOS)) ++
        (backlog.find? (fun m => decide (m.type = MessageType.MessageEOS))).toList ∧
    ((∀ m ∈ backlog, m.type ≠ MessageType.MessageEOS) →
      (Wait true (backlog.map (fun m => tickMsg m State.StateNull) ++ t :: rest)).trace
        = [Event.instanceCheck true, Event.messageChan] ++ backlog.map Event.recv ++
          [Event.instanceCheck true, Event.getState State.StateNull] ++
          runDeferred backlog.reverse) ∧
    (backlog = [] →
      Wait true (backlog.map (fun m => tickMsg m State.StateNull) ++ t :: rest)
        = { trace := [Event.instanceCheck true, Event.messageChan, Event.instanceCheck true,
                      Event.getState State.StateNull],
            returned := true }) := by
  obtain ⟨h1, h2, h3⟩ := waitLoop_backlog backlog t rest [] hp hv hs
  refine ⟨?_, ?_, ?_, ?_⟩
  · simp [Wait, WaitRun.after, h1]
  · simp [Wait, WaitRun.after, received, h2]
  · intro hall
    simp [Wait, WaitRun.after, h3 hall]
  · intro hnil
    subst hnil
    simp [Wait, waitLoop, hp, hv, hs, WaitRun.after, runDeferred]

/-- A Null pipeline with a State-Changed and an Error message pending, then nothing ready, then a
late message: both pending messages are received, the state check returns, the late message is
never received. -/
theorem C3_wait_returns_at_null_after_backlog_witness :
    (Wait true ([msgChanged, msgError].map (fun m => tickMsg m State.StateNull) ++
      tickIdle State.StateNull :: [tickMsg msgChanged State.StateNull])).returned = true ∧
    (Wait true ([msgChanged, msgError].map (fun m => tickMsg m State.StateNull) ++
      tickIdle State.StateNull :: [tickMsg msgChanged State.StateNull])).trace
      = [Event.instanceCheck true, Event.messageChan, Event.recv msgChanged,
         Event.recv msgError, Event.instanceCheck true, Event.getState State.StateNull,
         Event.unref msgError, Event.unref msgChanged] ∧
    received (Wait true ([msgChanged, msgError].map (fun m => tickMsg m State.StateNull) ++
      tickIdle State.StateNull :: [tickMsg msgChanged State.StateNull])).trace
      = [msgChanged, msgError] :=
  have h := C3_wait_returns_at_null_after_backlog [msgChanged, msgError]
    (tickIdle State.StateNull) [tickMsg msgChanged State.StateNull] rfl rfl rfl
  ⟨h.1, by decide, by decide⟩

/-- C4: in every run of `Wait` that returns, the releases are those of the messages received,
each as many times as it was received (once per receipt) and nothing else, and all of them have
been made when `Wait` returns: the trace is a release-free part followed by the releases of the
messages received in it, most recent first. -/
theorem C4_received_released_once (valid0 : Bool) (ticks : List Tick)
    (h : (Wait valid0 ticks).returned = true) :
    (∀ m, (released (Wait valid0 ticks).trace).count m
        = (received (Wait valid0 ticks).trace).count m) ∧
    released (Wait valid0 ticks).trace = (received (Wait valid0 ticks).trace).reverse ∧
    ∃ obs, (Wait valid0 ticks).trace = obs ++ runDeferred (received obs).reverse ∧
      released obs = [] := by
  obtain ⟨obs, e, htr, hrel, -⟩ := Wait_returned_shape valid0 ticks h
  have htr2 : (Wait valid0 ticks).trace
      = (obs ++ [e]) ++ runDeferred (received (obs ++ [e])).reverse := by
    rw [htr]; simp
  have hrec : received (Wait valid0 ticks).trace = received (obs ++ [e]) := by
    rw [htr2, received_append, received_runDeferred, List.append_nil]
  have hout : released (Wait valid0 ticks).trace = (received (obs ++ [e])).reverse := by
    rw [htr2, released_append, released_runDeferred, hrel, List.nil_append]
  refine ⟨?_, ?_, obs ++ [e], htr2, hrel⟩
  · intro m
    rw [hout, hrec, List.count_reverse]
  · rw [hout, hrec]

/-- Two messages, an idle poll, then teardown observed: both messages are released, once each. -/
theorem C4_received_released_once_witness :
    (Wait true [tickMsg msgChanged State.StatePlaying, tickMsg msgError State.StatePlaying,
        tickIdle State.StatePlaying, tickIdle State.StateNull]).returned = true ∧
    released (Wait true [tickMsg msgChanged State.StatePlaying,
        tickMsg msgError State.StatePlaying, tickIdle State.StatePlaying,
        tickIdle State.StateNull]).trace
      = [msgError, msgChanged] ∧
    released (Wait true [tickMsg msgChanged State.StatePlaying,
        tickMsg msgError State.StatePlaying, tickIdle State.StatePlaying,
        tickIdle State.StateNull]).trace
      = (received (Wait true [tickMsg msgChanged State.StatePlaying,
        tickMsg msgError State.StatePlaying, tickIdle State.StatePlaying,
        tickIdle State.StateNull]).trace).reverse :=
  ⟨by decide, by decide,
    (C4_received_released_once true [tickMsg msgChanged State.StatePlaying,
      tickMsg msgError State.StatePlaying, tickIdle State.StatePlaying,
      tickIdle State.StateNull] (by decide)).2.1⟩

/-- C7 fails on the code: the release is deferred to the return of `Wait`, so with a State-Changed
message, an Error message and then End-Of-Stream on the bus, the second and third receipts happen
while the earlier messages are still unreleased; all three are released only after the last
receipt. One message followed by one more poll already shows it; only a run whose first receipt
is its last action before returning releases promptly. -/
theorem C7_release_deferred_to_return :
    (Wait true [tickMsg msgChanged State.StatePlaying, tickMsg msgError State.StatePlaying,
        tickMsg msgEOS State.StatePlaying]).trace
      = [Event.instanceCheck true, Event.messageChan, Event.recv msgChanged, Event.recv msgError,
         Event.recv msgEOS, Event.unref msgEOS, Event.unref msgError, Event.unref msgChanged] ∧
    promptRelease (Wait true [tickMsg msgChanged State.StatePlaying,
        tickMsg msgError State.StatePlaying, tickMsg msgEOS State.StatePlaying]).trace = false ∧
    promptRelease (Wait true [tickMsg msgChanged State.StatePlaying,
        tickIdle State.StatePlaying]).trace = false ∧
    promptRelease (Wait true [tickIdle State.StatePlaying,
        tickMsg msgEOS State.StatePlaying]).trace = true := by
  decide

/-- C8: whenever `Wait` returns, the action it returns on is finding the handle invalid, finding
the state Null, or receiving an End-Of-Stream message, and only releases follow it; unless the
handle was invalid at entry, the tick at which it returns either has no message ready and shows
an invalid handle or the state Null, or has an End-Of-Stream message ready. A tick with a message
of any other type (Error, State-Changed, ...) never makes `Wait` return. -/
theorem C8_only_eos_or_null_terminate (valid0 : Bool) (ticks : List Tick)
    (h : (Wait valid0 ticks).returned = true) :
    (∃ obs e, (Wait valid0 ticks).trace
        = obs ++ e :: runDeferred (received (obs ++ [e])).reverse ∧
      released (obs ++ [e]) = [] ∧
      (e = Event.instanceCheck false ∨ e = Event.getState State.StateNull ∨
        ∃ m, e = Event.recv m ∧ m.type = MessageType.MessageEOS)) ∧
    (valid0 = false ∨
      ∃ pre t post, ticks = pre ++ t :: post ∧
        (Wait valid0 pre).returned = false ∧ (Wait valid0 (pre ++ [t])).returned = true ∧
        ((t.pending = none ∧ (t.valid = false ∨ t.state = State.StateNull)) ∨
          ∃ m, t.pending = some m ∧ m.type = MessageType.MessageEOS)) ∧
    (∀ (pre : List Tick) (t : Tick) (m : Message), t.pending = some m →
      m.type ≠ MessageType.MessageEOS →
      (Wait valid0 (pre ++ [t])).returned = (Wait valid0 pre).returned) := by
  refine ⟨?_, ?_, ?_⟩
  · obtain ⟨obs, e, htr, hrel, hex⟩ := Wait_returned_shape valid0 ticks h
    refine ⟨obs, e, htr, hrel, ?_⟩
    cases e with
    | instanceCheck v => cases v <;> simp_all [Event.isExit]
    | messageChan => simp [Event.isExit] at hex
    | getState st => simp_all [Event.isExit]
    | recv m => exact Or.inr (Or.inr ⟨m, rfl, by simpa [Event.isExit] using hex⟩)
    | unref m => simp [Event.isExit] at hex
  · by_cases hv : valid0 = false
    · exact Or.inl hv
    · right
      unfold Wait at h
      simp only [hv, if_false, WaitRun.after] at h
      obtain ⟨pre, t, post, hts, hpre, ht, hterm⟩ := waitLoop_exit_tick ticks [] h
      refine ⟨pre, t, post, hts, ?_, ?_, hterm⟩
      · simpa [Wait, hv, WaitRun.after] using hpre
      · simpa [Wait, hv, WaitRun.after] using ht
  · intro pre t m hp hm
    unfold Wait
    by_cases hv : valid0 = false
    · simp [hv]
    · simpa [hv, WaitRun.after] using waitLoop_snoc_other pre [] t m hp hm

/-- An Error message does not end the wait; the End-Of-Stream message after it does. -/
theorem C8_only_eos_or_null_terminate_witness :
    (Wait true [tickMsg msgError State.StatePlaying, tickMsg msgEOS State.StatePlaying]).returned
      = true ∧
    (Wait true [tickMsg msgError State.StatePlaying]).returned = false ∧
    ∃ obs e, (Wait true [tickMsg msgError State.StatePlaying,
          tickMsg msgEOS State.StatePlaying]).trace
        = obs ++ e :: runDeferred (received (obs ++ [e])).reverse ∧
      released (obs ++ [e]) = [] ∧
      (e = Event.instanceCheck false ∨ e = Event.getState State.StateNull ∨
        ∃ m, e = Event.recv m ∧ m.type = MessageType.MessageEOS) :=
  ⟨by decide, by decide,
    (C8_only_eos_or_null_terminate true [tickMsg msgError State.StatePlaying,
      tickMsg msgEOS State.StatePlaying] (by decide)).1⟩

end Gst
